import Mathlib

/-!
# Verification of the GitWalk code-indexing core

Shallow embedding of the backend services of the GitWalk repository:

* `app/services/keyword_scorer.py` — hybrid (BM25-style + vector) scorer;
* `app/services/embedding_service.py` — chunking / embedding pipeline;
* `app/services/parsers/python_parser.py` and `parser_factory.py` — the
  structural parser layer;
* `app/services/dependency_resolver.py` — the cross-file import resolver.

Python floats are modelled as exact rationals (`ℚ`), Python lists as Lean
lists, Python dicts with optional keys as structures with `Option` fields,
and `list(set(xs))` as `xs.dedup` (Python's set iteration order is
unspecified; the spec declares output ordering insignificant, and the
properties proved here are order-insensitive).  Fallible code (a Python
`ZeroDivisionError`) is returned as `Option`.
-/

namespace GitWalk

/-! ## String primitives

Python's `str.split`, `str.join`, `str.lower`, `str.startswith` and
`in` are modelled by structural functions over the character list of a
`String` (the core `String` versions use iterator loops that the kernel
cannot evaluate, which would block concrete witnesses). -/

/-- Model of `s.split(sep)` for a single-character separator: `"a.py".split('.') =
["a", "py"]`, `"".split('/') = [""]`, `"./b".split('.') = ["", "/b"]`. -/
def splitOnChar (sep : Char) : List Char → List (List Char)
  | [] => [[]]
  | c :: cs =>
    if c = sep then [] :: splitOnChar sep cs
    else
      match splitOnChar sep cs with
      | r :: rs => (c :: r) :: rs
      | [] => [[c]]

/-- Model of `s.split(sep)` on strings. -/
def pySplit (sep : Char) (s : String) : List String :=
  (splitOnChar sep s.toList).map String.mk

/-- Model of `sep.join(parts)`. -/
def pyJoin (sep : String) (parts : List String) : String :=
  String.mk (((parts.map String.toList).intersperse sep.toList).flatten)

/-- Model of `s.lower()` (ASCII case mapping). -/
def pyLower (s : String) : String :=
  String.mk (s.toList.map Char.toLower)

/-- Model of `s.startswith(pre)`. -/
def pyStartsWith (s pre : String) : Bool :=
  pre.toList.isPrefixOf s.toList

/-- Model of `c in s` for a character. -/
def pyContainsChar (s : String) (c : Char) : Bool :=
  s.toList.contains c

/-! ## Keyword scorer (`app/services/keyword_scorer.py`) -/

/-- The stop-word set of `KeywordScorer.extract_terms`
(`keyword_scorer.py` lines 61–67). -/
def stop_words : List String :=
  ["the", "a", "an", "and", "or", "but", "in", "on", "at", "to", "for",
   "of", "with", "by", "from", "as", "is", "was", "are", "been", "be",
   "have", "has", "had", "do", "does", "did", "will", "would", "could",
   "should", "may", "might", "can", "this", "that", "these", "those",
   "how", "what", "where", "when", "why", "who", "which"]

/-- A regex word character (`\w` over the lowered ASCII text): used for the
`\b` boundaries of the pattern `\b[a-z0-9]+\b`. -/
def isWordChar (c : Char) : Bool := c.isAlphanum || c = '_'

/-- A character matched by the token class `[a-z0-9]`. -/
def isTermChar (c : Char) : Bool :=
  ('a' ≤ c && c ≤ 'z') || ('0' ≤ c && c ≤ '9')

/-- Maximal runs of word characters of a character list.  A match of
`\b[a-z0-9]+\b` is exactly a maximal word-character run all of whose
characters lie in `[a-z0-9]` (a run containing `_` or a non-ASCII word
character admits no interior `\b`), so `re.findall` returns precisely the
runs kept by the filter in `extract_terms` below. -/
def wordRuns : List Char → List (List Char)
  | [] => []
  | c :: cs =>
    if isWordChar c then
      match cs, wordRuns cs with
      | d :: _, r :: rs => if isWordChar d then (c :: r) :: rs else [c] :: r :: rs
      | _, rest => [c] :: rest
    else
      wordRuns cs

/-- Model of `KeywordScorer.extract_terms` (`keyword_scorer.py` lines 40–72):
lowercase, collect the matches of `\b[a-z0-9]+\b`, drop stop words and
tokens shorter than 2 characters. -/
def extract_terms (text : String) : List String :=
  if text = "" then []
  else
    let tokens := ((wordRuns (text.toList.map Char.toLower)).filter
      (fun r => r.all isTermChar)).map (fun r => String.mk r)
    tokens.filter (fun t => ¬ t ∈ stop_words ∧ 2 ≤ t.length)

/-- Model of `KeywordScorer.calculate_bm25_score` (`keyword_scorer.py` lines 74–132),
with the scorer's `k1`/`b` passed explicitly (they are `__init__`
parameters, default `1.5`/`0.75`).  `doc_term_counts[term]` is
`document_terms.count term`; membership in the `Counter` is membership in
`document_terms`. -/
def calculate_bm25_score (k1 b : ℚ) (query_terms document_terms : List String)
    (avg_doc_length : ℚ) : ℚ :=
  if query_terms = [] ∨ document_terms = [] then 0
  else
    let query_set := query_terms.dedup
    let doc_length : ℚ := (document_terms.length : ℚ)
    let score := query_set.foldl (fun acc term =>
      if term ∈ document_terms then
        let tf : ℚ := (document_terms.count term : ℚ)
        let idf : ℚ := 1
        let length_norm : ℚ := 1 - b + b * (doc_length / avg_doc_length)
        acc + idf * (tf * (k1 + 1)) / (tf + k1 * length_norm)
      else acc) 0
    let score := if 0 < query_set.length then score / (query_set.length : ℚ) else score
    min score 1

/-- Result dictionary of `KeywordScorer.score_document`. -/
structure ScoreResult where
  keyword_score : ℚ
  path_score : ℚ
  summary_score : ℚ
  code_names_score : ℚ
deriving DecidableEq, Repr

/-- Model of `KeywordScorer.score_document` (`keyword_scorer.py` lines 134–196).
The Python `code_names: List[str] = None` default and the `if code_names:`
truthiness test make `None` and `[]` behave identically, so `code_names`
is a plain list here. -/
def score_document (k1 b : ℚ) (query file_path summary : String)
    (code_names : List String) : ScoreResult :=
  let query_terms := extract_terms query
  if query_terms = [] then
    ⟨0, 0, 0, 0⟩
  else
    let path_terms := extract_terms file_path
    let path_score := calculate_bm25_score k1 b query_terms path_terms 10
    let summary_terms := extract_terms summary
    let summary_score := calculate_bm25_score k1 b query_terms summary_terms 100
    let code_names_score :=
      if code_names ≠ [] then
        calculate_bm25_score k1 b query_terms
          (extract_terms (String.intercalate " " code_names)) 20
      else 0
    let keyword_score :=
      (1/2 : ℚ) * path_score + (3/10 : ℚ) * summary_score
        + (1/5 : ℚ) * code_names_score
    ⟨keyword_score, path_score, summary_score, code_names_score⟩

/-- Model of `file_path.split('/')[-1]` — the bare filename. -/
def bareFilename (file_path : String) : String :=
  ((pySplit '/' file_path).reverse).headD ""

/-- The matched query∩filename term set computed inside
`KeywordScorer.apply_filename_boost` (`keyword_scorer.py` lines 222–227):
`set(extract_terms(query)).intersection(set(extract_terms(filename)))`,
as a dedup'd list. -/
def filename_matching_terms (query file_path : String) : List String :=
  ((extract_terms query).dedup).filter
    (fun t => t ∈ (extract_terms (bareFilename file_path)).dedup)

/-- Model of `KeywordScorer.apply_filename_boost` (`keyword_scorer.py` lines 198–235). -/
def apply_filename_boost (query file_path : String) (base_score boost_factor : ℚ) : ℚ :=
  let query_terms := (extract_terms query).dedup
  let matching_terms := filename_matching_terms query file_path
  if matching_terms ≠ [] then
    let boost_multiplier :=
      1 + ((matching_terms.length : ℚ) / (query_terms.length : ℚ)) * (boost_factor - 1)
    min (base_score * boost_multiplier) 1
  else
    base_score

/-- Model of `hybrid_score` (`keyword_scorer.py` lines 238–273).  Python raises
`ZeroDivisionError` when `vector_weight + keyword_weight == 0`; that
failure is the `none` case. -/
def hybrid_score (vector_score keyword_score vector_weight keyword_weight : ℚ) :
    Option ℚ :=
  let total_weight := vector_weight + keyword_weight
  if total_weight = 0 then none
  else
    some ((vector_weight / total_weight) * vector_score
      + (keyword_weight / total_weight) * keyword_score)

/-! ## Chunking pipeline (`app/services/embedding_service.py`) -/

/-- Model of `EmbeddingService._extract_code_by_lines` (`embedding_service.py` lines
303–317): `'\n'.join(content.split('\n')[start_line-1:end_line])`. -/
def extract_code_by_lines (content : String) (start_line end_line : ℕ) : String :=
  let lines := pySplit '\n' content
  pyJoin "\n" ((lines.drop (start_line - 1)).take (end_line - (start_line - 1)))

/-- One chunk dictionary produced by `_create_sliding_window_chunks`
(`"start"`, `"end"`, `"code"`; `end` is a Lean keyword, so the field is
named `stop`). -/
structure SlidingChunk where
  start : ℕ
  stop : ℕ
  code : String
deriving DecidableEq, Repr

/-- The `while current < end_line` loop of
`EmbeddingService._create_sliding_window_chunks` (`embedding_service.py`
lines 340–361).  The loop body appends `(current, min(current+chunk_size,
end_line))`, advances `current` by `step`, and breaks once the chunk end
has reached `end_line`.  The recursion is driven by a fuel counter; since
`step ≥ 1` for the defaults (700 − 100) every iteration strictly increases
`current`, so fuel `end_line + 1` is never exhausted. -/
def sliding_window_loop (content : String) (end_line chunk_size step : ℕ) :
    ℕ → ℕ → List SlidingChunk
  | 0, _ => []
  | fuel + 1, current =>
    if current < end_line then
      let chunk_end := min (current + chunk_size) end_line
      let code := extract_code_by_lines content current chunk_end
      if end_line ≤ chunk_end then
        [⟨current, chunk_end, code⟩]
      else
        ⟨current, chunk_end, code⟩ ::
          sliding_window_loop content end_line chunk_size step fuel (current + step)
    else []

/-- Model of `EmbeddingService._create_sliding_window_chunks` (`embedding_service.py`
lines 319–361), `step = chunk_size - overlap`. -/
def create_sliding_window_chunks (content : String)
    (start_line end_line chunk_size overlap : ℕ) : List SlidingChunk :=
  sliding_window_loop content end_line chunk_size (chunk_size - overlap)
    (end_line + 1) start_line

/-! ## Python structural parser (`app/services/parsers/python_parser.py`)

The Python `ast` module's node tree is modelled by `PyNode`; every node
carries the `lineno`/`end_lineno` attributes `ast.parse` provides.
`ast.walk` is the breadth-first traversal of the documented CPython
implementation (a FIFO queue seeded with the root, children appended). -/

inductive PyNode where
  /-- Model of `ast.Module` -/
  | module (body : List PyNode)
  /-- Model of `ast.ClassDef` -/
  | classDef (name : String) (lineno end_lineno : ℕ) (body : List PyNode)
  /-- Model of `ast.FunctionDef` (`is_async = false`) / `ast.AsyncFunctionDef`
  (`is_async = true`) -/
  | functionDef (name : String) (lineno end_lineno : ℕ) (is_async : Bool)
      (body : List PyNode)
  /-- any other statement node, with its child nodes -/
  | stmt (body : List PyNode)

/-- Model of `ast.iter_child_nodes`. -/
def PyNode.children : PyNode → List PyNode
  | .module body => body
  | .classDef _ _ _ body => body
  | .functionDef _ _ _ _ body => body
  | .stmt body => body

mutual
/-- Node count, for the termination of the breadth-first walk. -/
def pySize : PyNode → ℕ
  | .module body => 1 + pySizeList body
  | .classDef _ _ _ body => 1 + pySizeList body
  | .functionDef _ _ _ _ body => 1 + pySizeList body
  | .stmt body => 1 + pySizeList body

def pySizeList : List PyNode → ℕ
  | [] => 0
  | n :: ns => pySize n + pySizeList ns
end

/-- The breadth-first queue loop of `ast.walk`: pop the front node, yield
it, push its children.  Each step removes exactly one node from the
pending forest, so the forest's node count is exactly the number of steps
and serves as the fuel. -/
def astWalkAux : ℕ → List PyNode → List PyNode
  | 0, _ => []
  | fuel + 1, queue =>
    match queue with
    | [] => []
    | n :: rest => n :: astWalkAux fuel (rest ++ n.children)

/-- Model of `ast.walk(root)` applied to a queue of pending nodes. -/
def astWalk (queue : List PyNode) : List PyNode :=
  astWalkAux (pySizeList queue) queue

/-- A function dictionary produced by `PythonParser._extract_functions`
(`python_parser.py` lines 62–70).  The Python dict carries no
`parent_class` key, so `f.get('parent_class')` is `None`; that absent key
is the `parent_class : Option String` field, always set to `none` by the
parser. -/
structure FuncInfo where
  name : String
  line_start : ℕ
  line_end : ℕ
  is_async : Bool
  parent_class : Option String
deriving DecidableEq, Repr

/-- A class dictionary produced by `PythonParser._extract_classes`
(`python_parser.py` lines 103–110). -/
structure ClassInfo where
  name : String
  line_start : ℕ
  line_end : ℕ
  methods : List String
deriving DecidableEq, Repr

/-- Model of `PythonParser._extract_functions` (`python_parser.py` lines 45–72):
walk the whole tree, and for every `FunctionDef`/`AsyncFunctionDef` record
`line_start = node.lineno` and — as written at line 65 of the source —
`line_end = node.lineno` as well. -/
def extract_functions (tree : PyNode) : List FuncInfo :=
  (astWalk [tree]).filterMap fun n =>
    match n with
    | .functionDef name lineno _end_lineno is_async _body =>
      some { name := name, line_start := lineno, line_end := lineno,
             is_async := is_async, parent_class := none }
    | _ => none

/-- Model of `PythonParser._extract_classes` (`python_parser.py` lines 74–113):
walk the whole tree, and for every `ClassDef` record its span
(`line_end = node.end_lineno` here) and the names of the
`FunctionDef`/`AsyncFunctionDef` items of its direct body. -/
def extract_classes (tree : PyNode) : List ClassInfo :=
  (astWalk [tree]).filterMap fun n =>
    match n with
    | .classDef name lineno end_lineno body =>
      some { name := name, line_start := lineno, line_end := end_lineno,
             methods := body.filterMap fun item =>
               match item with
               | .functionDef m _ _ _ _ => some m
               | _ => none }
    | _ => none

/-! ## Embedding pipeline (`app/services/embedding_service.py`) -/

/-- Python truthiness of `f.get('parent_class')`: `None` and `""` are
falsy. -/
def pyTruthyOptStr : Option String → Bool
  | none => false
  | some s => s ≠ ""

/-- The embedding dictionaries appended by
`EmbeddingService._generate_embeddings_for_file`: `"type"` of `"class"`,
`"class_chunk"` or `"function"`, with the extra keys of each shape. -/
inductive EmbRecord where
  | classRec (name code : String) (embedding : List ℚ)
      (line_start line_end method_count : ℕ)
  | classChunkRec (name parent_class code : String) (embedding : List ℚ)
      (line_start line_end chunk_index total_chunks : ℕ)
  | funcRec (name code : String) (embedding : List ℚ) (line_start line_end : ℕ)
deriving DecidableEq, Repr

/-- The code-embedding list built by
`EmbeddingService._generate_embeddings_for_file` (`embedding_service.py`
lines 177–270), with the embedding backend abstracted as
`encode : String → List ℚ` (`_encode_text`; a unit whose call fails or
returns an empty vector is skipped — here a failing call is an `encode`
returning `[]`).  Classes of span `line_end - line_start ≤ 800` are
embedded whole, larger classes through `_create_sliding_window_chunks`
with `chunk_size=700, overlap=100`; functions whose `parent_class` key is
falsy are embedded whole. -/
def generate_embeddings_for_file (encode : String → List ℚ) (content : String)
    (classes : List ClassInfo) (functions : List FuncInfo) : List EmbRecord :=
  let classEmbeddings := classes.flatMap fun cls =>
    let class_size := cls.line_end - cls.line_start
    if class_size ≤ 800 then
      let code := extract_code_by_lines content cls.line_start cls.line_end
      let embedding := encode code
      if embedding ≠ [] then
        [.classRec cls.name code embedding cls.line_start cls.line_end
          cls.methods.length]
      else []
    else
      let chunks := create_sliding_window_chunks content cls.line_start
        cls.line_end 700 100
      chunks.enum.filterMap fun ic =>
        let i := ic.1
        let chunk := ic.2
        let embedding := encode chunk.code
        if embedding ≠ [] then
          some (.classChunkRec (cls.name ++ "_chunk_" ++ toString (i + 1))
            cls.name chunk.code embedding chunk.start chunk.stop (i + 1)
            chunks.length)
        else none
  let standalone_functions := functions.filter fun f => ¬ pyTruthyOptStr f.parent_class
  let funcEmbeddings := standalone_functions.flatMap fun func =>
    let code := extract_code_by_lines content func.line_start func.line_end
    let embedding := encode code
    if embedding ≠ [] then
      [.funcRec func.name code embedding func.line_start func.line_end]
    else []
  classEmbeddings ++ funcEmbeddings

/-! ## Dependency resolver (`app/services/dependency_resolver.py`) -/

/-- Model of `s.replace(a, b)` for single characters (all occurrences). -/
def pyReplaceChar (a b : Char) (s : String) : String :=
  String.mk (s.toList.map fun c => if c = a then b else c)

/-- Model of `s[n:]`. -/
def pyDrop (s : String) (n : ℕ) : String :=
  String.mk (s.toList.drop n)

/-- Model of `'/'.join(p.split('/')[:-1])` — the containing directory of a path
(`""` for a bare filename), as computed at `dependency_resolver.py`
lines 265–269 and 459. -/
def dirname (p : String) : String :=
  pyJoin "/" ((pySplit '/' p).dropLast)

/-- A file document as consumed by `DependencyResolver`: its unique
`path`, its `language` tag and its raw import strings. -/
structure RFile where
  path : String
  language : String
  imports : List String
deriving DecidableEq, Repr

/-- One entry of `self.tsconfig_map` (`dependency_resolver.py` lines
224–227): the alias-prefix map, in dict insertion order (explicit `paths`
entries first, then the built-in defaults added when absent), and the
resolved `baseUrl`.  Python's falsy `None`/`''` states of `base_url` are
`none` / `some ""`. -/
structure TsConfig where
  aliases : List (String × String)
  base_url : Option String
deriving DecidableEq, Repr

/-- The resolver state after `__init__`: the repository files and the
parsed alias-configuration map keyed by each configuration file's
directory (the output of `_parse_all_tsconfigs`). -/
structure Resolver where
  files : List RFile
  tsconfig_map : List (String × TsConfig)
deriving DecidableEq, Repr

/-- The keys of `self.file_map` — every `SourceFile` path of the
repository. -/
def file_paths (r : Resolver) : List String :=
  r.files.map (·.path)

/-- The fallback configuration of `_get_config_for_file`
(`dependency_resolver.py` lines 255–258). -/
def default_config : TsConfig :=
  ⟨[("@/", "src/"), ("~/", "")], none⟩

/-- Model of `self.extension_map` (`dependency_resolver.py` lines 37–47), with a
dict miss (`.get(language, [])`) returning `[]`. -/
def extension_map (language : String) : List String :=
  if language = "javascript" then [".js", ".jsx", ".mjs", ".cjs"]
  else if language = "typescript" then [".ts", ".tsx", ".mts", ".cts"]
  else if language = "python" then [".py"]
  else if language = "go" then [".go"]
  else if language = "java" then [".java"]
  else if language = "rust" then [".rs"]
  else if language = "php" then [".php"]
  else if language = "cpp" then [".cpp", ".cc", ".cxx", ".hpp", ".h"]
  else if language = "c" then [".c", ".h"]
  else []

/-- Model of `DependencyResolver._find_file_with_extension`
(`dependency_resolver.py` lines 542–583): exact path, then each language
extension, then `base/index.<ext>` and `base/__init__.<ext>`. -/
def find_file_with_extension (r : Resolver) (base_path language : String) :
    Option String :=
  if base_path ∈ file_paths r then some base_path
  else
    let extensions := extension_map language
    match (extensions.map fun ext => base_path ++ ext).find?
        (fun c => decide (c ∈ file_paths r)) with
    | some candidate => some candidate
    | none =>
      (["index", "__init__"].flatMap fun index_name =>
        extensions.map fun ext => base_path ++ "/" ++ index_name ++ ext).find?
        (fun c => decide (c ∈ file_paths r))

/-- Model of `node_builtins` (`dependency_resolver.py` lines 394–397). -/
def node_builtins : List String :=
  ["fs", "path", "http", "https", "crypto", "buffer", "stream",
   "url", "util", "events", "os", "net", "tls", "child_process"]

/-- Model of `python_stdlib` (`dependency_resolver.py` lines 417–421). -/
def python_stdlib : List String :=
  ["os", "sys", "json", "re", "datetime", "asyncio", "typing",
   "pathlib", "collections", "itertools", "functools", "unittest",
   "pytest", "flask", "django", "pandas", "numpy", "requests"]

/-- Model of `DependencyResolver._is_external_package` (`dependency_resolver.py`
lines 380–439). -/
def is_external_package (r : Resolver) (import_path language : String) : Bool :=
  if language = "javascript" ∨ language = "typescript" then
    let base_package := (pySplit '/' import_path).headD ""
    if base_package ∈ node_builtins then true
    else if pyStartsWith import_path "@/" || pyStartsWith import_path "~/" then
      false
    else if ¬ pyStartsWith import_path "." && ¬ pyStartsWith import_path "/" then
      true
    else false
  else if language = "python" then
    let base_module := (pySplit '.' import_path).headD ""
    if base_module ∈ python_stdlib then true
    else if ¬ pyStartsWith import_path "." &&
        (find_file_with_extension r (pyReplaceChar '.' '/' import_path)
          language).isNone then
      true
    else false
  else if language = "go" then
    ¬ pyStartsWith import_path "." &&
      pyContainsChar ((pySplit '/' import_path).headD "") '.'
  else false

/-- Model of `DependencyResolver._resolve_relative` (`dependency_resolver.py` lines
441–482): strip a leading `./`, then fold the segments over the current
directory's path stack, `..` popping (never below the root — `pop` on an
empty stack is skipped) and plain segments pushing. -/
def resolve_relative (r : Resolver) (import_path current_file language : String) :
    Option String :=
  let current_dir := dirname current_file
  let clean_path :=
    if pyStartsWith import_path "./" then pyDrop import_path 2 else import_path
  let parts := pySplit '/' clean_path
  let path_parts := if current_dir = "" then [] else pySplit '/' current_dir
  let path_parts := parts.foldl (fun acc part =>
    if part = ".." then acc.dropLast
    else if part ≠ "" ∧ part ≠ "." then acc ++ [part]
    else acc) path_parts
  find_file_with_extension r (pyJoin "/" path_parts) language

/-- The `while True` walk of `DependencyResolver._get_config_for_file`
(`dependency_resolver.py` lines 276–291): look the current directory up,
else step to its parent (`''` is the last step before giving up).  Each
step strictly shortens the directory string, so fuel `|file_path| + 2` is
never exhausted. -/
def config_walk (m : List (String × TsConfig)) : ℕ → String → Option TsConfig
  | 0, _ => none
  | fuel + 1, current_dir =>
    match m.lookup current_dir with
    | some cfg => some cfg
    | none =>
      if pyContainsChar current_dir '/' then config_walk m fuel (dirname current_dir)
      else if current_dir ≠ "" then config_walk m fuel ""
      else m.lookup ""

/-- Model of `DependencyResolver._get_config_for_file` (`dependency_resolver.py`
lines 242–294). -/
def get_config_for_file (m : List (String × TsConfig)) (file_path : String) :
    TsConfig :=
  if m = [] then default_config
  else
    let ps := pySplit '/' file_path
    let file_dir := if 1 < ps.length then pyJoin "/" ps.dropLast else ""
    (config_walk m (file_path.length + 2) file_dir).getD default_config

/-- Stable insertion of an element into a list already sorted by
descending alias length, keeping the inserted (originally earlier)
element ahead of equal-length ones. -/
def insertByKeyLenDesc (x : String × String) :
    List (String × String) → List (String × String)
  | [] => [x]
  | y :: ys =>
    if x.1.length < y.1.length then y :: insertByKeyLenDesc x ys
    else x :: y :: ys

/-- Model of `sorted(aliases.items(), key=lambda x: len(x[0]), reverse=True)`
(`dependency_resolver.py` line 533).  Python's `sorted` is stable, and a
stable sort by a fixed key is unique, so this insertion sort produces the
same list. -/
def sortByKeyLenDesc : List (String × String) → List (String × String)
  | [] => []
  | x :: xs => insertByKeyLenDesc x (sortByKeyLenDesc xs)

/-- Model of `DependencyResolver._resolve_alias` (`dependency_resolver.py` lines
516–540).  `import_path.replace(alias, replacement, 1)` replaces the
leftmost occurrence; under the guard `import_path.startswith(alias)` that
occurrence is the prefix, so the result is `replacement ++ rest`. -/
def resolve_alias (r : Resolver) (import_path current_file_path language : String) :
    Option String :=
  let config := get_config_for_file r.tsconfig_map current_file_path
  let sorted_aliases := sortByKeyLenDesc config.aliases
  match sorted_aliases.find? (fun al => pyStartsWith import_path al.1) with
  | some al =>
    find_file_with_extension r (al.2 ++ pyDrop import_path al.1.length) language
  | none => none

/-- Model of `DependencyResolver._resolve_absolute` (`dependency_resolver.py` lines
484–514): Python imports have dots translated to path separators; JS/TS
imports are first tried against the nearest configuration's truthy
`baseUrl`. -/
def resolve_absolute (r : Resolver) (import_path current_file language : String) :
    Option String :=
  let import_path :=
    if language = "python" then pyReplaceChar '.' '/' import_path else import_path
  if language = "javascript" ∨ language = "typescript" then
    let config := get_config_for_file r.tsconfig_map current_file
    match config.base_url with
    | some base_url =>
      if base_url ≠ "" then
        match find_file_with_extension r (base_url ++ "/" ++ import_path) language with
        | some result => some result
        | none => find_file_with_extension r import_path language
      else find_file_with_extension r import_path language
    | none => find_file_with_extension r import_path language
  else find_file_with_extension r import_path language

/-- Model of `DependencyResolver.resolve_import` (`dependency_resolver.py` lines
348–378). -/
def resolve_import (r : Resolver) (import_statement current_file_path language : String) :
    Option String :=
  if is_external_package r import_statement language then none
  else if pyStartsWith import_statement "." then
    resolve_relative r import_statement current_file_path language
  else if pyStartsWith import_statement "@/" || pyStartsWith import_statement "~/"
      || pyStartsWith import_statement "@" then
    resolve_alias r import_statement current_file_path language
  else
    resolve_absolute r import_statement current_file_path language

/-- One value of the `dependencies` dict built by
`resolve_all_dependencies`. -/
structure DepEntry where
  imports : List String
  imported_by : List String
  external_imports : List String
deriving DecidableEq, Repr

/-- The first-pass entry for one file (`dependency_resolver.py` lines
308–337): each raw import either resolves (into `imports`) or is demoted
to `external_imports`; both lists pass through `list(set(...))`, modelled
as `dedup` (Python's set order is unspecified and the spec declares
ordering insignificant). -/
def resolve_file_entry (r : Resolver) (f : RFile) : DepEntry :=
  let language := pyLower f.language
  if f.imports = [] then ⟨[], [], []⟩
  else
    let resolved_imports :=
      f.imports.filterMap fun stmt => resolve_import r stmt f.path language
    let external_imports :=
      f.imports.filter fun stmt => (resolve_import r stmt f.path language).isNone
    ⟨resolved_imports.dedup, [], external_imports.dedup⟩

/-- The first pass of `resolve_all_dependencies`, keyed by file path in
file order (dict insertion order). -/
def first_pass (r : Resolver) : List (String × DepEntry) :=
  r.files.map fun f => (f.path, resolve_file_entry r f)

/-- Model of `dependencies[imported_file]['imported_by'].append(path)` guarded by
`if imported_file in dependencies` (`dependency_resolver.py` lines
342–343): entries whose key is `target` get `from_path` appended; a
missing key leaves the dict unchanged. -/
def append_imported_by (deps : List (String × DepEntry))
    (target from_path : String) : List (String × DepEntry) :=
  deps.map fun pe =>
    if pe.1 = target then
      (pe.1, { pe.2 with imported_by := pe.2.imported_by ++ [from_path] })
    else pe

/-- The second (reverse-edge) pass (`dependency_resolver.py` lines
340–343): for every entry in order and every resolved import of that
entry, append the importer to the target's `imported_by`.  Only
`imported_by` fields mutate, so iterating the original entries' `imports`
matches the Python loop over the mutating dict. -/
def second_pass (deps : List (String × DepEntry)) : List (String × DepEntry) :=
  deps.foldl (fun acc pe =>
    pe.2.imports.foldl (fun acc2 imported_file =>
      append_imported_by acc2 imported_file pe.1) acc) deps

/-- Model of `DependencyResolver.resolve_all_dependencies` (`dependency_resolver.py`
lines 296–346). -/
def resolve_all_dependencies (r : Resolver) : List (String × DepEntry) :=
  second_pass (first_pass r)

/-! ## Parser factory (`app/services/parsers/parser_factory.py`) -/

/-- The parse-result dictionary of the parser contract. -/
structure ParseResult where
  functions : List FuncInfo
  classes : List ClassInfo
  imports : List String
  parse_error : Option String
deriving DecidableEq, Repr

/-- The two parser classes imported by `parser_factory.py` (each
auto-registers its `SUPPORTED_LANGUAGES` with the `BaseParser` registry). -/
inductive RegisteredParser where
  | python
  | treeSitter
deriving DecidableEq, Repr

/-- Model of `PythonParser.SUPPORTED_LANGUAGES` (`python_parser.py` line 13). -/
def python_supported_languages : List String := ["python"]

/-- Model of `TreeSitterParser.SUPPORTED_LANGUAGES` (`tree_sitter_parser.py` lines
21–32). -/
def tree_sitter_supported_languages : List String :=
  ["javascript", "typescript", "tsx", "jsx", "go", "java", "rust", "cpp",
   "c", "php"]

/-- Modelled from the spec: the registry lookup of `BaseParser` lives in
`base_parser.py`, which is not among the provided sources — only its
callers and the registered `SUPPORTED_LANGUAGES` lists are.  Per the spec
(§9: "a mapping from language identifier to an implementation of the
parser contract, populated at process start, looked up by key"), the
registry maps exactly the registered language tags to their parser class
and yields `None` for any other tag. -/
def registered_parser_for (language : String) : Option RegisteredParser :=
  if language ∈ python_supported_languages then some .python
  else if language ∈ tree_sitter_supported_languages then some .treeSitter
  else none

/-- Model of `ParserFactory.parse_file` (`parser_factory.py` lines 74–107), with
the registered parsers' `parse` methods abstracted as `impl` (they call
`ast.parse` / the tree-sitter runtime).  A dispatch miss builds the empty
result dictionary directly — no exception can escape. -/
def parse_file (impl : RegisteredParser → String → String → ParseResult)
    (code file_path language : String) : ParseResult :=
  match registered_parser_for language with
  | none => ⟨[], [], [], some ("Unsupported language: " ++ language)⟩
  | some p => impl p code file_path

/-! ## Concrete fixtures used by the theorems below -/

/-- The spec's resolver round-trip repository: `a.py` importing `./b`,
`b.py` importing nothing, no alias-configuration files (so
`_parse_all_tsconfigs` leaves `tsconfig_map` empty). -/
def repo_ab : Resolver :=
  ⟨[⟨"a.py", "python", ["./b"]⟩, ⟨"b.py", "python", []⟩], []⟩

/-- The scope `_parse_all_tsconfigs` stores for a root `tsconfig.json`
whose `paths` map `@/*` to `./src/*` with no `baseUrl`: the explicit
alias `@/ → src/` first, then the built-in default `~/ → ''`. -/
def root_config : TsConfig := ⟨[("@/", "src/"), ("~/", "")], none⟩

/-- The scope stored for `frontend/tsconfig.json` whose `paths` map `@/*`
to `./app/*` with no `baseUrl`: `@/ → frontend/app/`, default
`~/ → frontend/`. -/
def frontend_config : TsConfig := ⟨[("@/", "frontend/app/"), ("~/", "frontend/")], none⟩

/-- The spec's alias-scoping repository: a root scope mapping `@/` to
`src/`, a `frontend/` scope mapping `@/` to `frontend/app/`, and both
candidate targets present as files. -/
def repo_alias : Resolver :=
  ⟨[⟨"tsconfig.json", "json", []⟩, ⟨"frontend/tsconfig.json", "json", []⟩,
    ⟨"frontend/src/x.ts", "typescript", ["@/util"]⟩,
    ⟨"frontend/app/util.ts", "typescript", []⟩,
    ⟨"src/util.ts", "typescript", []⟩],
   [("", root_config), ("frontend", frontend_config)]⟩

/-- The AST `ast.parse` produces for
`"class C:\n    def m(self):\n        return 1"`: a class `C` on lines
1–3 whose body holds the method `m` on lines 2–3. -/
def method_file_tree : PyNode :=
  .module [.classDef "C" 1 3 [.functionDef "m" 2 3 false [.stmt []]]]

/-- The source text of `method_file_tree`. -/
def method_file_content : String := "class C:\n    def m(self):\n        return 1"

/-- An embedding backend that succeeds on every unit (returns a non-empty
vector), isolating the pipeline's record selection from backend failures. -/
def const_encode : String → List ℚ := fun _ => [1]

/-- The AST of `"def f():\n    return 1"`: a function spanning source
lines 1–2 (`lineno = 1`, `end_lineno = 2`). -/
def two_line_function_tree : PyNode := .module [.functionDef "f" 1 2 false [.stmt []]]

/-! ## Theorems -/

/-- The `(start, stop)` spans the sliding-window loop produces do not
depend on the file content (only the `code` slices do). -/
theorem sliding_window_loop_spans (c₁ c₂ : String) (e cs st : ℕ) :
    ∀ (fuel cur : ℕ),
      (sliding_window_loop c₁ e cs st fuel cur).map (fun ch => (ch.start, ch.stop))
        = (sliding_window_loop c₂ e cs st fuel cur).map (fun ch => (ch.start, ch.stop)) := by
  intro fuel
  induction fuel with
  | zero => intro cur; rfl
  | succ f ih =>
    intro cur
    simp only [sliding_window_loop]
    by_cases h1 : cur < e
    · by_cases h2 : e ≤ min (cur + cs) e
      · simp [h1, h2]
      · simp [h1, h2, ih]
    · simp [h1]

/-- C1 (counterexample): for a class spanning lines 1–1600 the window ends
are `min(start + 700, 1600)`, not `start + 699`, so the chunk list is not
`[1,700],[601,1300],[1201,1600]`. -/
theorem sliding_window_chunks_1600_ne_claimed :
    (create_sliding_window_chunks "" 1 1600 700 100).map (fun c => (c.start, c.stop))
      ≠ [(1, 700), (601, 1300), (1201, 1600)] := by decide

/-- C1 (amended): for a class spanning lines 1 to 1600, the sliding-window
chunker with window size 700 and overlap 100 (step 600) produces exactly
the chunks `[1,701]`, `[601,1301]`, `[1201,1600]` — each window end is
`min(start + 700, 1600)` — the last chunk is clipped to the class end, and
no chunk's end line exceeds the class's end line. -/
theorem sliding_window_chunks_1600 (content : String) :
    (create_sliding_window_chunks content 1 1600 700 100).map (fun c => (c.start, c.stop))
      = [(1, 701), (601, 1301), (1201, 1600)]
    ∧ ∀ c ∈ create_sliding_window_chunks content 1 1600 700 100, c.stop ≤ 1600 := by
  have hmap : (create_sliding_window_chunks content 1 1600 700 100).map
      (fun c => (c.start, c.stop)) = [(1, 701), (601, 1301), (1201, 1600)] := by
    unfold create_sliding_window_chunks
    rw [sliding_window_loop_spans content "" 1600 700 600 (1600 + 1) 1]
    decide
  refine ⟨hmap, ?_⟩
  intro c hc
  have h2 := List.mem_map_of_mem (fun c => (c.start, c.stop)) hc
  rw [hmap] at h2
  simp only [List.mem_cons, List.not_mem_nil, or_false, Prod.mk.injEq] at h2
  rcases h2 with ⟨-, h⟩ | ⟨-, h⟩ | ⟨-, h⟩ <;> omega

/-- C1 (witness): the clipped last chunk of the 1–1600 class stays within
the class end. -/
theorem sliding_window_chunks_1600_witness :
    (⟨1201, 1600, extract_code_by_lines "" 1201 1600⟩ : SlidingChunk).stop ≤ 1600 :=
  (sliding_window_chunks_1600 "").2
    ⟨1201, 1600, extract_code_by_lines "" 1201 1600⟩ (by decide)

/-- C2: the parsers never attach a `parent_class` key to a function, so
the method `m` of class `C` — listed in `C`'s `methods` — passes the
`not f.get('parent_class')` filter of `_generate_embeddings_for_file` and
receives its own `"function"` embedding record, contrary to the documented
"standalone functions only (not methods)" strategy. -/
theorem python_method_embedded_as_function :
    extract_classes method_file_tree = [⟨"C", 1, 3, ["m"]⟩]
    ∧ extract_functions method_file_tree = [⟨"m", 2, 2, false, none⟩]
    ∧ (generate_embeddings_for_file const_encode method_file_content
        (extract_classes method_file_tree) (extract_functions method_file_tree)).any
        (fun record => match record with
          | .funcRec name _ _ _ _ => name = "m"
          | _ => false) = true := by
  exact ⟨by decide, by decide, by decide⟩

/-- C3: `PythonParser._extract_functions` sets `line_end = node.lineno`
(the start line), so every reported function satisfies
`line_end = line_start`; in particular the two-line function `f` spanning
source lines 1–2 is reported with span `[1, 1]`, not `[1, 2]`. -/
theorem python_function_line_end_bug :
    (∀ (tree : PyNode), ∀ f ∈ extract_functions tree, f.line_end = f.line_start)
    ∧ (extract_functions two_line_function_tree).map (fun f => (f.line_start, f.line_end))
      = [(1, 1)] := by
  constructor
  · intro tree f hf
    simp only [extract_functions, List.mem_filterMap] at hf
    obtain ⟨n, -, hn⟩ := hf
    cases n with
    | module body => simp at hn
    | classDef a b c d => simp at hn
    | stmt body => simp at hn
    | functionDef name lineno el ia body =>
      simp only [Option.some.injEq] at hn
      subst hn
      rfl
  · decide

/-- C3 (witness): the general part applied to the concrete two-line
function. -/
theorem python_function_line_end_bug_witness :
    ({name := "f", line_start := 1, line_end := 1, is_async := false,
      parent_class := none} : FuncInfo).line_end
      = ({name := "f", line_start := 1, line_end := 1, is_async := false,
          parent_class := none} : FuncInfo).line_start :=
  python_function_line_end_bug.1 two_line_function_tree _ (by decide)

/-- C4: for the repository `{a.py importing "./b", b.py}` the resolver
returns `a.py.imports = ["b.py"]` and `b.py.imported_by = ["a.py"]`. -/
theorem resolver_round_trip_ab :
    resolve_all_dependencies repo_ab
      = [("a.py", ⟨["b.py"], [], []⟩), ("b.py", ⟨[], ["a.py"], []⟩)] := by decide

/-- C9 (counterexample): `hybrid_score` divides by the weight sum, so the
weight pair `(0, 0)` raises `ZeroDivisionError` (no result), and the
weight pair `(2, -1)` sends the scores `(1, 0)` — both in `[0,1]` — to
`2`, outside `[0,1]`. -/
theorem hybrid_score_claim_fails :
    hybrid_score (1/2) (1/2) 0 0 = none ∧ hybrid_score 1 0 2 (-1) = some 2 := by
  constructor
  · norm_num [hybrid_score]
  · norm_num [hybrid_score]

/-- C9 (amended): for every weight pair with nonzero sum, `hybrid_score`
returns `normalize(vectorWeight)*vectorScore +
normalize(keywordWeight)*keywordScore` with the normalized weights summing
to 1; the combination fails (`ZeroDivisionError`) exactly when the weights
sum to zero; and for nonnegative weights of nonzero sum and scores in
`[0,1]` the result is in `[0,1]`. -/
theorem hybrid_score_normalized (vs ks vw kw : ℚ) (h : vw + kw ≠ 0) :
    hybrid_score vs ks vw kw
        = some ((vw / (vw + kw)) * vs + (kw / (vw + kw)) * ks)
      ∧ vw / (vw + kw) + kw / (vw + kw) = 1
      ∧ (0 ≤ vw → 0 ≤ kw → 0 ≤ vs → vs ≤ 1 → 0 ≤ ks → ks ≤ 1 →
          0 ≤ (vw / (vw + kw)) * vs + (kw / (vw + kw)) * ks
          ∧ (vw / (vw + kw)) * vs + (kw / (vw + kw)) * ks ≤ 1) := by
  refine ⟨by simp [hybrid_score, h], ?_, ?_⟩
  · rw [div_add_div_same, div_self h]
  · intro hvw hkw hvs hvs1 hks hks1
    have ht : 0 < vw + kw := lt_of_le_of_ne (by linarith) (Ne.symm h)
    have hα : 0 ≤ vw / (vw + kw) := div_nonneg hvw ht.le
    have hβ : 0 ≤ kw / (vw + kw) := div_nonneg hkw ht.le
    have hsum : vw / (vw + kw) + kw / (vw + kw) = 1 := by
      rw [div_add_div_same, div_self h]
    constructor
    · exact add_nonneg (mul_nonneg hα hvs) (mul_nonneg hβ hks)
    · nlinarith

/-- C9 (witness): the default weights `0.7/0.3`. -/
theorem hybrid_score_normalized_witness :
    hybrid_score 1 0 (7/10) (3/10)
      = some (((7/10 : ℚ) / (7/10 + 3/10)) * 1 + ((3/10 : ℚ) / (7/10 + 3/10)) * 0) :=
  (hybrid_score_normalized 1 0 (7/10) (3/10) (by norm_num)).1

/-- C10: a language tag with no registered parser yields the empty parse
result carrying the error string naming the language — built directly,
never via an exception. -/
theorem unsupported_language_empty_result
    (impl : RegisteredParser → String → String → ParseResult)
    (code file_path language : String) (h : registered_parser_for language = none) :
    parse_file impl code file_path language
      = ⟨[], [], [], some ("Unsupported language: " ++ language)⟩ := by
  simp [parse_file, h]

/-- C10 (witness): the factory's own doctest input, the unregistered tag
`"kotlin"`. -/
theorem unsupported_language_empty_result_witness :
    parse_file (fun _ _ _ => ⟨[], [], [], none⟩) "fun main()" "test.kt" "kotlin"
      = ⟨[], [], [], some ("Unsupported language: " ++ "kotlin")⟩ :=
  unsupported_language_empty_result (fun _ _ _ => ⟨[], [], [], none⟩)
    "fun main()" "test.kt" "kotlin" (by decide)

/-- A left fold whose step preserves nonnegativity stays nonnegative. -/
theorem foldl_rat_nonneg {α : Type} (f : ℚ → α → ℚ)
    (hf : ∀ acc a, 0 ≤ acc → 0 ≤ f acc a) :
    ∀ (l : List α) (acc : ℚ), 0 ≤ acc → 0 ≤ l.foldl f acc := by
  intro l
  induction l with
  | nil => intro acc h0; exact h0
  | cons a l ih => intro acc h0; exact ih _ (hf _ _ h0)

/-- The BM25 facet score lies in `[0, 1]` whenever `0 ≤ k1`, `0 ≤ b ≤ 1`
and the average-length constant is nonnegative: every summand is a
quotient of nonnegatives, and the final `min(score, 1.0)` caps the sum. -/
theorem calculate_bm25_score_bounds (k1 b : ℚ) (q d : List String) (avg : ℚ)
    (hk : 0 ≤ k1) (hb0 : 0 ≤ b) (hb1 : b ≤ 1) (ha : 0 ≤ avg) :
    0 ≤ calculate_bm25_score k1 b q d avg ∧ calculate_bm25_score k1 b q d avg ≤ 1 := by
  unfold calculate_bm25_score
  split
  · norm_num
  · have hfold : 0 ≤ q.dedup.foldl (fun acc term =>
        if term ∈ d then
          acc + 1 * ((d.count term : ℚ) * (k1 + 1)) /
            ((d.count term : ℚ) + k1 * (1 - b + b * ((d.length : ℚ) / avg)))
        else acc) 0 := by
      refine foldl_rat_nonneg _ ?_ _ _ le_rfl
      intro acc term hacc
      split
      · have h1 : (0 : ℚ) ≤ (d.count term : ℚ) := Nat.cast_nonneg _
        have h2 : (0 : ℚ) ≤ (d.length : ℚ) / avg :=
          div_nonneg (Nat.cast_nonneg _) ha
        have hL : (0 : ℚ) ≤ 1 - b + b * ((d.length : ℚ) / avg) := by
          nlinarith [mul_nonneg hb0 h2]
        refine add_nonneg hacc (div_nonneg ?_ ?_)
        · nlinarith
        · exact add_nonneg h1 (mul_nonneg hk hL)
      · exact hacc
    constructor
    · refine le_min ?_ (by norm_num)
      split
      · exact div_nonneg hfold (Nat.cast_nonneg _)
      · exact hfold
    · exact min_le_right _ _

/-- C7: for every query and candidate document, the keyword score of
`score_document` and each of its facet sub-scores (path, summary, code
names) lie in `[0, 1]`, and a query with no extracted terms yields
keyword score exactly 0. -/
theorem score_document_bounds (query file_path summary : String)
    (code_names : List String) :
    (0 ≤ (score_document (3/2) (3/4) query file_path summary code_names).path_score
      ∧ (score_document (3/2) (3/4) query file_path summary code_names).path_score ≤ 1)
    ∧ (0 ≤ (score_document (3/2) (3/4) query file_path summary code_names).summary_score
      ∧ (score_document (3/2) (3/4) query file_path summary code_names).summary_score ≤ 1)
    ∧ (0 ≤ (score_document (3/2) (3/4) query file_path summary code_names).code_names_score
      ∧ (score_document (3/2) (3/4) query file_path summary code_names).code_names_score ≤ 1)
    ∧ (0 ≤ (score_document (3/2) (3/4) query file_path summary code_names).keyword_score
      ∧ (score_document (3/2) (3/4) query file_path summary code_names).keyword_score ≤ 1)
    ∧ (extract_terms query = [] →
      (score_document (3/2) (3/4) query file_path summary code_names).keyword_score = 0) := by
  by_cases hq : extract_terms query = []
  · simp [score_document, hq]
  · have hnum : (0 : ℚ) ≤ 3/2 ∧ (0 : ℚ) ≤ 3/4 ∧ (3/4 : ℚ) ≤ 1 := by norm_num
    have hp := calculate_bm25_score_bounds (3/2) (3/4) (extract_terms query)
      (extract_terms file_path) 10 hnum.1 hnum.2.1 hnum.2.2 (by norm_num)
    have hs := calculate_bm25_score_bounds (3/2) (3/4) (extract_terms query)
      (extract_terms summary) 100 hnum.1 hnum.2.1 hnum.2.2 (by norm_num)
    have hcb := calculate_bm25_score_bounds (3/2) (3/4) (extract_terms query)
      (extract_terms (String.intercalate " " code_names)) 20
      hnum.1 hnum.2.1 hnum.2.2 (by norm_num)
    have hrec : score_document (3/2) (3/4) query file_path summary code_names =
        { keyword_score :=
            (1/2 : ℚ) * calculate_bm25_score (3/2) (3/4) (extract_terms query)
                (extract_terms file_path) 10
              + (3/10 : ℚ) * calculate_bm25_score (3/2) (3/4) (extract_terms query)
                (extract_terms summary) 100
              + (1/5 : ℚ) * (if code_names ≠ [] then
                  calculate_bm25_score (3/2) (3/4) (extract_terms query)
                    (extract_terms (String.intercalate " " code_names)) 20
                else 0),
          path_score := calculate_bm25_score (3/2) (3/4) (extract_terms query)
            (extract_terms file_path) 10,
          summary_score := calculate_bm25_score (3/2) (3/4) (extract_terms query)
            (extract_terms summary) 100,
          code_names_score := if code_names ≠ [] then
              calculate_bm25_score (3/2) (3/4) (extract_terms query)
                (extract_terms (String.intercalate " " code_names)) 20
            else 0 } := by
      simp [score_document, hq]
    have hC : (0 : ℚ) ≤ (if code_names ≠ [] then
          calculate_bm25_score (3/2) (3/4) (extract_terms query)
            (extract_terms (String.intercalate " " code_names)) 20
        else 0)
        ∧ (if code_names ≠ [] then
            calculate_bm25_score (3/2) (3/4) (extract_terms query)
              (extract_terms (String.intercalate " " code_names)) 20
          else 0) ≤ 1 := by
      split
      · exact hcb
      · norm_num
    rw [hrec]
    dsimp only
    refine ⟨hp, hs, hC, ⟨?_, ?_⟩, fun h => absurd h hq⟩
    · linarith [hp.1, hs.1, hC.1]
    · linarith [hp.2, hs.2, hC.2]

/-- C7 (witness): the empty query extracts no terms and scores 0. -/
theorem score_document_bounds_witness :
    (score_document (3/2) (3/4) "" "app/parser.ts" "summary text" ["run"]).keyword_score
      = 0 :=
  (score_document_bounds "" "app/parser.ts" "summary text" ["run"]).2.2.2.2 (by decide)

/-- C8: with the default boost factor 1.3, `apply_filename_boost` never
decreases a base score in `[0,1]`: when at least one extracted query term
appears among the bare filename's terms the boosted score is ≥ the base
score, and when none does the score is returned unchanged. -/
theorem apply_filename_boost_monotone (query file_path : String) (base_score : ℚ)
    (h0 : 0 ≤ base_score) (h1 : base_score ≤ 1) :
    (filename_matching_terms query file_path ≠ [] →
      base_score ≤ apply_filename_boost query file_path base_score (13/10))
    ∧ (filename_matching_terms query file_path = [] →
      apply_filename_boost query file_path base_score (13/10) = base_score) := by
  constructor
  · intro hm
    simp only [apply_filename_boost, if_pos hm, hm, ne_eq, not_false_eq_true, if_true]
    have hfrac : (0 : ℚ) ≤ ((filename_matching_terms query file_path).length : ℚ)
        / (((extract_terms query).dedup).length : ℚ) :=
      div_nonneg (Nat.cast_nonneg _) (Nat.cast_nonneg _)
    have hmul : (1 : ℚ) ≤ 1 + ((filename_matching_terms query file_path).length : ℚ)
        / (((extract_terms query).dedup).length : ℚ) * (13/10 - 1) := by
      nlinarith
    refine le_min ?_ h1
    nlinarith
  · intro hm
    simp [apply_filename_boost, hm]

/-- C8 (witness): the query `"parser"` matches the filename of
`"app/parser.ts"`, and the boosted score is at least the base. -/
theorem apply_filename_boost_monotone_witness :
    (1/2 : ℚ) ≤ apply_filename_boost "parser" "app/parser.ts" (1/2) (13/10) :=
  (apply_filename_boost_monotone "parser" "app/parser.ts" (1/2)
    (by norm_num) (by norm_num)).1 (by decide)

/-- Every path `_find_file_with_extension` returns is a repository file
path: each branch succeeds only on a candidate found in `file_map`. -/
theorem find_file_with_extension_mem (r : Resolver) (base_path language p : String)
    (h : find_file_with_extension r base_path language = some p) :
    p ∈ file_paths r := by
  simp only [find_file_with_extension] at h
  by_cases hb : base_path ∈ file_paths r
  · rw [if_pos hb] at h
    injection h with h'
    exact h' ▸ hb
  · rw [if_neg hb] at h
    split at h
    next c heq =>
      injection h with h'
      have h2 := List.find?_some heq
      simp only [decide_eq_true_eq] at h2
      exact h' ▸ h2
    next heq =>
      have h2 := List.find?_some h
      simp only [decide_eq_true_eq] at h2
      exact h2

/-- Lemma: `_resolve_relative` only returns repository file paths. -/
theorem resolve_relative_mem (r : Resolver) (ip cf language p : String)
    (h : resolve_relative r ip cf language = some p) : p ∈ file_paths r := by
  simp only [resolve_relative] at h
  exact find_file_with_extension_mem r _ language p h

/-- Lemma: `_resolve_alias` only returns repository file paths. -/
theorem resolve_alias_mem (r : Resolver) (ip cf language p : String)
    (h : resolve_alias r ip cf language = some p) : p ∈ file_paths r := by
  simp only [resolve_alias] at h
  rcases hf : List.find? (fun al => pyStartsWith ip al.1)
      (sortByKeyLenDesc (get_config_for_file r.tsconfig_map cf).aliases) with _ | al
  · rw [hf] at h
    cases h
  · rw [hf] at h
    exact find_file_with_extension_mem r _ language p h

/-- Lemma: `_resolve_absolute` only returns repository file paths. -/
theorem resolve_absolute_mem (r : Resolver) (ip cf language p : String)
    (h : resolve_absolute r ip cf language = some p) : p ∈ file_paths r := by
  simp only [resolve_absolute] at h
  split at h
  · split at h
    next base_url heq =>
      split at h
      · split at h
        next result heq2 =>
          injection h with h'
          exact h' ▸ find_file_with_extension_mem r _ language result heq2
        next heq2 =>
          exact find_file_with_extension_mem r _ language p h
      · exact find_file_with_extension_mem r _ language p h
    next heq =>
      exact find_file_with_extension_mem r _ language p h
  · exact find_file_with_extension_mem r _ language p h

/-- Lemma: `resolve_import` only returns repository file paths (an import that
maps to no repository file yields `None`). -/
theorem resolve_import_mem (r : Resolver) (stmt cf language p : String)
    (h : resolve_import r stmt cf language = some p) : p ∈ file_paths r := by
  unfold resolve_import at h
  by_cases he : is_external_package r stmt language = true
  · rw [if_pos he] at h
    cases h
  · rw [if_neg he] at h
    by_cases hrel : pyStartsWith stmt "." = true
    · rw [if_pos hrel] at h
      exact resolve_relative_mem r stmt cf language p h
    · rw [if_neg hrel] at h
      by_cases hal : (pyStartsWith stmt "@/" || pyStartsWith stmt "~/"
          || pyStartsWith stmt "@") = true
      · rw [if_pos hal] at h
        exact resolve_alias_mem r stmt cf language p h
      · rw [if_neg hal] at h
        exact resolve_absolute_mem r stmt cf language p h

/-- Every first-pass entry has internal-only, duplicate-free resolved
imports. -/
theorem first_pass_entry_good (r : Resolver) :
    ∀ pe ∈ first_pass r,
      (∀ t ∈ pe.2.imports, t ∈ file_paths r) ∧ pe.2.imports.Nodup := by
  intro pe hpe
  simp only [first_pass, List.mem_map] at hpe
  obtain ⟨f, hf, rfl⟩ := hpe
  simp only [resolve_file_entry]
  split
  · simp
  · constructor
    · intro t ht
      simp only [List.mem_dedup, List.mem_filterMap] at ht
      obtain ⟨stmt, -, hres⟩ := ht
      exact resolve_import_mem r stmt f.path _ t hres
    · exact List.nodup_dedup _

/-- The first pass records every unresolvable import of a file among its
`external_imports`. -/
theorem first_pass_entry_external (r : Resolver) (f : RFile) (hf : f ∈ r.files) :
    (f.path, resolve_file_entry r f) ∈ first_pass r
    ∧ ∀ stmt ∈ f.imports,
        resolve_import r stmt f.path (pyLower f.language) = none →
          stmt ∈ (resolve_file_entry r f).external_imports := by
  constructor
  · simp only [first_pass, List.mem_map]
    exact ⟨f, hf, rfl⟩
  · intro stmt hs hnone
    simp only [resolve_file_entry]
    split
    case isTrue hemp => rw [hemp] at hs; cases hs
    case isFalse =>
      simp only [List.mem_dedup, List.mem_filter]
      exact ⟨hs, by simp [hnone]⟩

/-- A left fold through property-preserving steps preserves the
property. -/
theorem foldl_preserves {β α : Type} (P : β → Prop) (f : β → α → β)
    (hf : ∀ b a, P b → P (f b a)) :
    ∀ (l : List α) (b : β), P b → P (l.foldl f b) := by
  intro l
  induction l with
  | nil => intro b hb; exact hb
  | cons a l ih => intro b hb; exact ih _ (hf _ _ hb)

/-- Lemma: `append_imported_by` only rewrites `imported_by` fields: any property
of the key, `imports` and `external_imports` of every entry survives. -/
theorem append_imported_by_preserves_fields (d : List (String × DepEntry))
    (target fp : String) (P : String → List String → List String → Prop)
    (h : ∀ pe ∈ d, P pe.1 pe.2.imports pe.2.external_imports) :
    ∀ pe ∈ append_imported_by d target fp,
      P pe.1 pe.2.imports pe.2.external_imports := by
  intro pe hpe
  simp only [append_imported_by, List.mem_map] at hpe
  obtain ⟨qe, hqe, hfq⟩ := hpe
  subst hfq
  by_cases hq : qe.1 = target
  · simpa [hq] using h qe hqe
  · simpa [hq] using h qe hqe

/-- Lemma: `append_imported_by` keeps every existing `(path, imports,
external_imports)` triple present (possibly with a grown
`imported_by`). -/
theorem append_imported_by_keeps (d : List (String × DepEntry))
    (target fp p : String) (I X : List String)
    (h : ∃ ib, (p, ⟨I, ib, X⟩) ∈ d) :
    ∃ ib, (p, ⟨I, ib, X⟩) ∈ append_imported_by d target fp := by
  obtain ⟨ib, hib⟩ := h
  by_cases hp : p = target
  · refine ⟨ib ++ [fp], ?_⟩
    have hm := List.mem_map_of_mem (fun pe =>
      if pe.1 = target then
        (pe.1, { pe.2 with imported_by := pe.2.imported_by ++ [fp] })
      else pe) hib
    simpa [append_imported_by, hp] using hm
  · refine ⟨ib, ?_⟩
    have hm := List.mem_map_of_mem (fun pe =>
      if pe.1 = target then
        (pe.1, { pe.2 with imported_by := pe.2.imported_by ++ [fp] })
      else pe) hib
    simpa [append_imported_by, hp] using hm

/-- A property preserved by every `append_imported_by` step is preserved
by the whole reverse-edge pass. -/
theorem second_pass_preserves (P : List (String × DepEntry) → Prop)
    (hP : ∀ d target fp, P d → P (append_imported_by d target fp))
    (deps : List (String × DepEntry)) (h : P deps) : P (second_pass deps) := by
  unfold second_pass
  refine foldl_preserves P _ ?_ deps deps h
  intro d pe hd
  refine foldl_preserves P _ ?_ pe.2.imports d hd
  intro d2 imp hd2
  exact hP d2 imp pe.1 hd2

/-- C5: after `resolve_all_dependencies`, every path in any entry's
resolved `imports` list is a repository file path and appears at most
once in that list; and every import of a file that resolves to no
repository file is recorded in that file's `external_imports` (no edge). -/
theorem resolved_imports_internal (r : Resolver) :
    (∀ pe ∈ resolve_all_dependencies r,
      (∀ t ∈ pe.2.imports, t ∈ file_paths r) ∧ pe.2.imports.Nodup)
    ∧ ∀ f ∈ r.files, ∃ entry,
        (f.path, entry) ∈ resolve_all_dependencies r
        ∧ ∀ stmt ∈ f.imports,
            resolve_import r stmt f.path (pyLower f.language) = none →
              stmt ∈ entry.external_imports := by
  constructor
  · exact second_pass_preserves
      (fun d => ∀ pe ∈ d, (∀ t ∈ pe.2.imports, t ∈ file_paths r) ∧ pe.2.imports.Nodup)
      (fun d target fp hd =>
        append_imported_by_preserves_fields d target fp
          (fun _ I _ => (∀ t ∈ I, t ∈ file_paths r) ∧ I.Nodup) hd)
      (first_pass r) (first_pass_entry_good r)
  · intro f hf
    obtain ⟨hmem, hext⟩ := first_pass_entry_external r f hf
    have hQ := second_pass_preserves
      (fun d => ∃ ib, (f.path, ⟨(resolve_file_entry r f).imports, ib,
        (resolve_file_entry r f).external_imports⟩) ∈ d)
      (fun d target fp hd => append_imported_by_keeps d target fp f.path _ _ hd)
      (first_pass r) ⟨(resolve_file_entry r f).imported_by, hmem⟩
    obtain ⟨ib, hib⟩ := hQ
    exact ⟨⟨(resolve_file_entry r f).imports, ib,
      (resolve_file_entry r f).external_imports⟩, hib, fun stmt hs hn => hext stmt hs hn⟩

/-- C5 (witness): the invariant at the concrete two-file repository. -/
theorem resolved_imports_internal_witness :
    (∀ t ∈ (("a.py", (⟨["b.py"], [], []⟩ : DepEntry))).2.imports, t ∈ file_paths repo_ab)
    ∧ (("a.py", (⟨["b.py"], [], []⟩ : DepEntry))).2.imports.Nodup :=
  (resolved_imports_internal repo_ab).1 ("a.py", ⟨["b.py"], [], []⟩) (by decide)

/-- Membership is invariant under the stable insertion. -/
theorem mem_insertByKeyLenDesc (x y : String × String) (l : List (String × String)) :
    y ∈ insertByKeyLenDesc x l ↔ y = x ∨ y ∈ l := by
  induction l with
  | nil => simp [insertByKeyLenDesc]
  | cons z zs ih =>
    simp only [insertByKeyLenDesc]
    split
    · rw [List.mem_cons, ih, List.mem_cons]
      tauto
    · exact List.mem_cons

/-- Membership is invariant under the length sort. -/
theorem mem_sortByKeyLenDesc (y : String × String) (l : List (String × String)) :
    y ∈ sortByKeyLenDesc l ↔ y ∈ l := by
  induction l with
  | nil => simp [sortByKeyLenDesc]
  | cons x xs ih => simp [sortByKeyLenDesc, mem_insertByKeyLenDesc, ih]

/-- Stable insertion preserves the descending-length ordering. -/
theorem pairwise_insertByKeyLenDesc (x : String × String) :
    ∀ (l : List (String × String)),
      l.Pairwise (fun a b => b.1.length ≤ a.1.length) →
      (insertByKeyLenDesc x l).Pairwise (fun a b => b.1.length ≤ a.1.length) := by
  intro l
  induction l with
  | nil => intro _; simp [insertByKeyLenDesc]
  | cons y ys ih =>
    intro h
    rw [List.pairwise_cons] at h
    obtain ⟨hy, hys⟩ := h
    simp only [insertByKeyLenDesc]
    split
    case isTrue hlt =>
      rw [List.pairwise_cons]
      refine ⟨?_, ih hys⟩
      intro b hb
      rw [mem_insertByKeyLenDesc] at hb
      rcases hb with rfl | hb
      · omega
      · exact hy b hb
    case isFalse hge =>
      rw [List.pairwise_cons]
      constructor
      · intro b hb
        rcases List.mem_cons.mp hb with rfl | hb'
        · omega
        · have := hy b hb'
          omega
      · exact List.pairwise_cons.mpr ⟨hy, hys⟩

/-- The length sort produces a descending-length list. -/
theorem pairwise_sortByKeyLenDesc (l : List (String × String)) :
    (sortByKeyLenDesc l).Pairwise (fun a b => b.1.length ≤ a.1.length) := by
  induction l with
  | nil => simp [sortByKeyLenDesc]
  | cons x xs ih => exact pairwise_insertByKeyLenDesc x _ ih

/-- In a descending-length list, the first match of `find?` has maximal
key length among all matches. -/
theorem find?_first_is_max (p : String × String → Bool) :
    ∀ (l : List (String × String)),
      l.Pairwise (fun a b => b.1.length ≤ a.1.length) →
      ∀ x, l.find? p = some x →
        ∀ q ∈ l, p q = true → q.1.length ≤ x.1.length := by
  intro l
  induction l with
  | nil => intro _ x h; simp at h
  | cons a as ih =>
    intro hp x hf q hq hpq
    rw [List.pairwise_cons] at hp
    obtain ⟨ha, has⟩ := hp
    by_cases hpa : p a = true
    · rw [List.find?_cons_of_pos _ hpa] at hf
      injection hf with h'
      subst h'
      rcases List.mem_cons.mp hq with rfl | hq'
      · exact le_refl _
      · exact ha q hq'
    · rw [List.find?_cons_of_neg _ hpa] at hf
      rcases List.mem_cons.mp hq with rfl | hq'
      · rw [hpq] at hpa
        contradiction
      · exact ih has x hf q hq' hpq

/-- C6: a file under `frontend/` resolves `@/util` through the
`frontend/` alias scope (nearest enclosing configuration), landing on
`frontend/app/util.ts` and not on the root scope's `src/util.ts`; and
within the chosen scope `_resolve_alias` matches the alias of maximal
length among all matching prefixes (length-descending stable sort, first
match). -/
theorem alias_scope_resolution :
    (get_config_for_file repo_alias.tsconfig_map "frontend/src/x.ts" = frontend_config
      ∧ resolve_import repo_alias "@/util" "frontend/src/x.ts" "typescript"
          = some "frontend/app/util.ts")
    ∧ ∀ (aliases : List (String × String)) (import_path : String)
        (al : String × String),
        (sortByKeyLenDesc aliases).find? (fun q => pyStartsWith import_path q.1)
            = some al →
          pyStartsWith import_path al.1 = true
          ∧ ∀ q ∈ aliases, pyStartsWith import_path q.1 = true →
              q.1.length ≤ al.1.length := by
  constructor
  · exact ⟨by decide, by decide⟩
  · intro aliases ip al hfind
    have h1 := List.find?_some hfind
    refine ⟨h1, ?_⟩
    intro q hq hpq
    exact find?_first_is_max _ _ (pairwise_sortByKeyLenDesc aliases) al hfind
      q ((mem_sortByKeyLenDesc q aliases).mpr hq) hpq

/-- C6 (witness): the longest-prefix property at the `frontend/` scope's
alias table and the import `@/util`. -/
theorem alias_scope_resolution_witness :
    pyStartsWith "@/util" ("@/", "frontend/app/").1 = true
    ∧ ∀ q ∈ frontend_config.aliases, pyStartsWith "@/util" q.1 = true →
        q.1.length ≤ ("@/", "frontend/app/").1.length :=
  alias_scope_resolution.2 frontend_config.aliases "@/util" ("@/", "frontend/app/")
    (by decide)

end GitWalk
